import Mathlib

/-!
Verification of the fee payload-emission engine (fee.py) against its
specification.  The Python source is shallowly embedded: bytes are `Nat`
values below 256, byte strings are `List Nat`, text is `List Char` or
`String`, and each code-emitting method of `CodeGenerator` becomes a pure
Lean function producing the statement list that the Python `add` calls
build up.  The zlib compressor is an external library; it is passed as a
parameter and its documented contract (round-trip, byte output) appears as
explicit hypotheses where needed.
-/

/-! ## Base64 (as used by Python `base64.b64encode`, RFC 4648 alphabet) -/

/-- The standard base64 alphabet character for a 6-bit value, exactly the
table used by `base64.b64encode`. -/
def b64Char (n : Nat) : Char :=
  if n < 26 then Char.ofNat (65 + n)
  else if n < 52 then Char.ofNat (71 + n)
  else if n < 62 then Char.ofNat (n - 4)
  else if n = 62 then '+'
  else '/'

/-- Base64-encode a byte sequence, three bytes at a time, with `=` padding:
the transform performed by `b64encode` inside `CodeGenerator._prepare_elf`. -/
def b64encodeBytes : List Nat → List Char
  | [] => []
  | [a] => [b64Char (a / 4), b64Char (a % 4 * 16), '=', '=']
  | [a, b] => [b64Char (a / 4), b64Char (a % 4 * 16 + b / 16), b64Char (b % 16 * 4), '=']
  | a :: b :: c :: rest =>
      b64Char (a / 4) :: b64Char (a % 4 * 16 + b / 16) ::
      b64Char (b % 16 * 4 + c / 64) :: b64Char (c % 64) :: b64encodeBytes rest

/-- Index of a base64 alphabet character (inverse of `b64Char` on 0..63). -/
def b64Index (c : Char) : Nat :=
  if 'A' ≤ c ∧ c ≤ 'Z' then c.toNat - 65
  else if 'a' ≤ c ∧ c ≤ 'z' then c.toNat - 71
  else if '0' ≤ c ∧ c ≤ '9' then c.toNat + 4
  else if c = '+' then 62
  else 63

/-- Base64-decode well-formed base64 text, four characters at a time,
honouring `=` padding: the `base64.b64decode` / `decode_base64` /
`Base64.decode64` step of the emitted scripts. -/
def b64decodeChars : List Char → List Nat
  | a :: b :: c :: d :: rest =>
      if c = '=' then [b64Index a * 4 + b64Index b / 16]
      else if d = '=' then
        [b64Index a * 4 + b64Index b / 16, b64Index b % 16 * 16 + b64Index c / 4]
      else
        (b64Index a * 4 + b64Index b / 16) :: (b64Index b % 16 * 16 + b64Index c / 4) ::
        (b64Index c % 4 * 64 + b64Index d) :: b64decodeChars rest
  | _ => []

/-! ## Line wrapping: the `encoded[i : i + chars] for i in range(0, length, chars)`
slicing shared by the three `add_elf` methods. -/

/-- Successive slices of size `n` of a character list, as produced by the
Python generator expression `encoded[i : i + chars] for i in range(0, length, chars)`. -/
def chunksOf (n : Nat) (s : List Char) : List (List Char) :=
  if h : s = [] then []
  else if hn : n = 0 then [s]
  else s.take n :: chunksOf n (s.drop n)
termination_by s.length
decreasing_by
  have hpos : 0 < s.length := List.length_pos.mpr h
  simp only [List.length_drop]
  omega

/-! ## Python string helpers used by the emitters -/

/-- Whitespace characters removed by Python `str.strip()`. -/
def pyIsSpace (c : Char) : Bool :=
  c == ' ' || c == '\t' || c == '\n' || c == '\r' || c == '\x0b' || c == '\x0c'

/-- Python `str.strip()` on a character list. -/
def pyStrip (l : List Char) : List Char :=
  ((l.dropWhile pyIsSpace).reverse.dropWhile pyIsSpace).reverse

/-- Python `str.replace(old, new)` when `old` is a single character:
each occurrence of `c` becomes `rep`, scanning left to right. -/
def replaceChar (c : Char) (rep : List Char) : List Char → List Char
  | [] => []
  | x :: xs => (if x = c then rep else [x]) ++ replaceChar c rep xs

/-- Split a character list at every occurrence of `c` (occurrences removed),
keeping empty pieces, like Python `str.split(c)`. -/
def splitOnChar (c : Char) : List Char → List (List Char)
  | [] => [[]]
  | x :: xs =>
    match splitOnChar c xs with
    | [] => [[]]
    | h :: t => if x = c then [] :: h :: t else (x :: h) :: t

/-! ## Quote escaping (`args.replace("'", "\\'")` and the space-to-delimiter
substitution shared by the `add_call_elf` methods). -/

/-- Model of `args.replace("'", "\\'")`: put a backslash before every single quote. -/
def escQuote (l : List Char) : List Char := replaceChar '\'' ['\\', '\''] l

/-- The `"', '"` text that `args.replace(" ", "', '")` puts between argv words. -/
def argDelim : List Char := ['\'', ',', ' ', '\'']

/-- Model of `args.replace(" ", "', '")`: turn each space into a quoted-list delimiter. -/
def spaceDelim (l : List Char) : List Char := replaceChar ' ' argDelim l

/-- Checks that every single quote in the list is immediately preceded by a
backslash (i.e. the text is safe to drop inside a single-quoted literal). -/
def quotesEscapedB : List Char → Bool
  | [] => true
  | [x] => x != '\''
  | x :: y :: xs =>
    if x = '\'' then false
    else if x = '\\' && y = '\'' then quotesEscapedB xs
    else quotesEscapedB (y :: xs)

/-! ## `_get_e_machine` and the architecture / syscall table of `main` -/

/-- Model of `_get_e_machine(header)`: byte 5 selects the endianness (1 means
little-endian, anything else big-endian) and the 16-bit field at offsets
18-19 read with that endianness is the ELF machine identifier
(`struct.unpack(f"endianness16xHH", header)`). -/
def get_e_machine (header : List Nat) : Nat :=
  if header.getD 5 0 = 1 then header.getD 18 0 + 256 * header.getD 19 0
  else 256 * header.getD 18 0 + header.getD 19 0

/-- A key of the `syscall_numbers` Python dict: architecture name strings and
raw ELF machine identifiers share the one table. -/
inductive DKey where
  | str (s : String)
  | num (n : Nat)
deriving DecidableEq

/-- The `syscall_numbers` dict literal of `main`, entry by entry in source
order.  Python dict construction lets a later duplicate key overwrite an
earlier one, which matters for the duplicated machine identifier 8. -/
def syscall_entries : List (DKey × Int) :=
  [(.str "autodetect", -1), (.str "libc", -1),
   (.str "386", 356), (.num 3, 356),
   (.str "amd64", 319), (.num 62, 319),
   (.str "arm", 385), (.num 40, 385),
   (.str "arm64", 279), (.str "riscv64", 279), (.num 183, 279),
   (.str "mips", 4354), (.num 8, 4354),
   (.str "mips64", 5314), (.str "mips64le", 5314), (.num 8, 5314),
   (.str "ppc", 360), (.str "ppc64", 360), (.num 20, 360),
   (.str "s390x", 350), (.num 22, 350),
   (.str "sparc64", 348), (.num 2, 348), (.num 18, 348), (.num 43, 348)]

/-- Python dict lookup over an insertion-ordered entry list: the value of the
last binding of the key, `none` when absent (`dict.get`). -/
def dictGet (k : DKey) (es : List (DKey × Int)) : Option Int :=
  ((es.filter (fun e => e.1 == k)).getLast?).map Prod.snd

/-- The syscall-resolution logic of `main`: an `"autodetect"` target
architecture is first replaced by the machine identifier read from the first
20 bytes of the ELF; any target other than `"libc"` is then looked up in
`syscall_numbers`, while `"libc"` falls back to the `-s` command-line value
(`None` when not given). -/
def resolve_syscall (target_architecture : String) (syscall_arg : Option Int)
    (elf : List Nat) : Option Int :=
  let ta : DKey := if target_architecture = "autodetect" then
      .num (get_e_machine (elf.take 20))
    else .str target_architecture
  if ta ≠ .str "libc" then dictGet ta syscall_entries else syscall_arg

/-! ## The `CodeGenerator` dialect emitters -/

/-- Python truthiness of the `syscall` field: `None` and `0` are falsy. -/
def optIntTruthy : Option Int → Bool
  | none => false
  | some n => n != 0

/-- Errors raised by `CodeGenerator` and its inner generator classes. -/
inductive FeeError where
  | languageNotImplemented (msg : String)
  | generatorException (msg : String)
  | indexError
deriving DecidableEq

/-- The supported dialects of `set_lang`. -/
inductive Lang where
  | python
  | perl
  | ruby
deriving DecidableEq

/-- Model of `CodeGenerator._prepare_elf`: compress then base64-encode.  The zlib
compressor is an external library, so it is a parameter here; its contract
(round-trip with the decompressor, bytes out) enters the theorems as
hypotheses. -/
def prepare_elf (compress : Nat → List Nat → List Nat) (compression_level : Nat)
    (elf : List Nat) : List Char :=
  b64encodeBytes (compress compression_level elf)

/-- Python `repr` of a `bytes` value whose content stays inside the base64
alphabet: `b'...'` (no quote or backslash ever occurs, so the quote style is
fixed).  This is the `f"{self.prep_elf(elf)}"` step of `_Python.add_elf`. -/
def pyBytesRepr (s : List Char) : List Char := 'b' :: '\'' :: s ++ ['\'']

/-- The wrap step of `_Python.add_elf`: slices of `wrap - 3` characters
joined with a quote, newline, and the next byte-literal opener. -/
def python_wrap_encoded (wrap : Nat) (encoded : List Char) : List Char :=
  if wrap > 3 then
    List.intercalate (String.toList "'\nb'") (chunksOf (wrap - 3) encoded)
  else encoded

/-- The wrap step of `_Perl.add_elf` (`"'.\n'".join(...)`). -/
def perl_wrap_encoded (wrap : Nat) (encoded : List Char) : List Char :=
  if wrap > 3 then
    List.intercalate (String.toList "'.\n'") (chunksOf (wrap - 3) encoded)
  else encoded

/-- The wrap step of `_Ruby.add_elf` (`"'+\n'".join(...)`). -/
def ruby_wrap_encoded (wrap : Nat) (encoded : List Char) : List Char :=
  if wrap > 3 then
    List.intercalate (String.toList "'+\n'") (chunksOf (wrap - 3) encoded)
  else encoded

/-- Argument list serialization shared by `_Python.add_call_elf` and
`_Perl.add_call_elf`: strip, escape single quotes, then turn each space into
a `', '` delimiter. -/
def args_escaped (argv : List Char) : List Char :=
  spaceDelim (escQuote (pyStrip argv))

/-- The `_Python.add_dump_elf` descriptor-creation statement: with a truthy
syscall number the bound `l.syscall` is invoked with that number, the empty
name and flag 1 (`MFD_CLOEXEC`); otherwise `l.memfd_create` is invoked with
the empty name and flag 1. -/
def python_dump_stmt (syscall : Option Int) : String :=
  match syscall with
  | some n => if n != 0 then "f = s(" ++ toString n ++ ", '', 1)" else "f = s('', 1)"
  | none => "f = s('', 1)"

/-- The statement sequence built by the `_Python` generator through its
`add_header`, `add_elf`, `add_dump_elf`, `add_call_elf` steps. -/
def python_stmts (syscall : Option Int) (wrap : Nat) (prepped : List Char)
    (argv : List Char) : List String :=
  ["import ctypes, os, base64, zlib",
   "l = ctypes.CDLL(None)",
   (if optIntTruthy syscall then "s = l.syscall" else "s = l.memfd_create"),
   "c = base64.b64decode(\n" ++ String.mk (python_wrap_encoded wrap (pyBytesRepr prepped)) ++ "\n)",
   "e = zlib.decompress(c)",
   python_dump_stmt syscall,
   "os.write(f, e)",
   "p = '/proc/self/fd/%d' % f",
   "os.execle(p, '" ++ String.mk (args_escaped argv) ++ "', \x7b\x7d)"]

/-- The `_Python` output: every added line followed by a newline. -/
def python_output (syscall : Option Int) (wrap : Nat) (prepped : List Char)
    (argv : List Char) : String :=
  String.join ((python_stmts syscall wrap prepped argv).map (fun l => l ++ "\n"))

/-- The statement sequence built by the `_Perl` generator (its constructor
has already insisted on a concrete syscall number `n`). -/
def perl_stmts (n : Int) (wrap : Nat) (prepped : List Char)
    (argv : List Char) : List String :=
  ["use MIME::Base64",
   "use Compress::Zlib",
   "$c = decode_base64(''.\n'" ++ String.mk (perl_wrap_encoded wrap prepped) ++ "')",
   "$e = uncompress($c)",
   "$n = ''",
   "$f = syscall(" ++ toString n ++ ", $n, 1)",
   "open($h, '>&='.$f) or die",
   "select((select($h), $|=1)[0])",
   "print $h $e",
   "$p = \"/proc/self/fd/$f\"",
   "exec \x7b$p\x7d '" ++ String.mk (args_escaped argv) ++ "'"]

/-- The `_Perl` output: every added line followed by `;` and a newline. -/
def perl_output (n : Int) (wrap : Nat) (prepped : List Char)
    (argv : List Char) : String :=
  String.join ((perl_stmts n wrap prepped argv).map (fun l => l ++ ";\n"))

/-- First whitespace-run-delimited word of an already-stripped argv string:
`args.split()[0]` in `_Ruby.add_call_elf`. -/
def ruby_argv0 (args : List Char) : List Char :=
  args.takeWhile (fun c => !(pyIsSpace c))

/-- Model of `_Ruby.add_call_elf`: the first word of argv is substituted verbatim as
the process name; only the remainder is stripped, quote-escaped and
space-delimited.  On an empty (or all-whitespace) argv, `args.split()[0]`
raises `IndexError`, modelled as `none`. -/
def ruby_call_stmts (argv : List Char) : Option (List String) :=
  let args := pyStrip argv
  if args = [] then none
  else
    let argv0 := ruby_argv0 args
    let rest := spaceDelim (escQuote (pyStrip (args.drop argv0.length)))
    some ["p = \"/proc/self/fd/#\x7bf\x7d\"",
          "exec([p, '" ++ String.mk argv0 ++ "']" ++
            (if rest.length > 0 then ", '" ++ String.mk rest ++ "'" else "") ++ ")"]

/-- The statements added by the `_Ruby` generator's `add_header`, `add_elf`
and `add_dump_elf` steps, before `add_call_elf` runs. -/
def ruby_pre_stmts (n : Int) (wrap : Nat) (prepped : List Char) : List String :=
  ["require 'base64'",
   "require 'zlib'",
   "c = Base64.decode64(''+\n'" ++ String.mk (ruby_wrap_encoded wrap prepped) ++ "')",
   "e = Zlib::Inflate.inflate(c)",
   "n = ''",
   "f = syscall(" ++ toString n ++ ", n, 1)",
   "io = IO.new(f)",
   "io << e"]

/-- The statement sequence built by the `_Ruby` generator, `none` when
`add_call_elf` raises. -/
def ruby_stmts (n : Int) (wrap : Nat) (prepped : List Char)
    (argv : List Char) : Option (List String) :=
  (ruby_call_stmts argv).map (fun call => ruby_pre_stmts n wrap prepped ++ call)

/-- The statements the `_Ruby` generator holds at the moment `add_call_elf`
raises `IndexError`: `self.add('p = "/proc/self/fd/#\x7bf\x7d"')` has already run
when `args.split()[0]` fails, so the partial script ends with the path
binding. -/
def ruby_partial_stmts (n : Int) (wrap : Nat) (prepped : List Char) : List String :=
  ruby_pre_stmts n wrap prepped ++ ["p = \"/proc/self/fd/#\x7bf\x7d\""]

/-- The partial `_Ruby` output left in `self._generator.output` after the
`IndexError`. -/
def ruby_partial_output (n : Int) (wrap : Nat) (prepped : List Char) : String :=
  String.join ((ruby_partial_stmts n wrap prepped).map (fun l => l ++ "\n"))

/-- The `_Ruby` output: every added line followed by a newline. -/
def ruby_output (n : Int) (wrap : Nat) (prepped : List Char)
    (argv : List Char) : Option String :=
  (ruby_stmts n wrap prepped argv).map
    (fun stmts => String.join (stmts.map (fun l => l ++ "\n")))

/-- Model of `CodeGenerator.generate` for a chosen dialect: construct the dialect
generator (the `_Perl` and `_Ruby` constructors refuse a falsy syscall) and
drive it through the four generation steps. -/
def CodeGenerator_generate (compress : Nat → List Nat → List Nat) (lang : Lang)
    (compression_level wrap : Nat) (syscall : Option Int) (elf : List Nat)
    (argv : List Char) : Except FeeError String :=
  let prepped := prepare_elf compress compression_level elf
  match lang with
  | .python => .ok (python_output syscall wrap prepped argv)
  | .perl =>
      if optIntTruthy syscall then
        .ok (perl_output (syscall.getD 0) wrap prepped argv)
      else
        .error (.generatorException
          "Perl generator cannot resolve the syscall using libc, specify a target architecture")
  | .ruby =>
      if optIntTruthy syscall then
        match ruby_output (syscall.getD 0) wrap prepped argv with
        | some out => .ok out
        | none => .error .indexError
      else
        .error (.generatorException
          "Ruby generator cannot resolve the syscall using libc, specify a target architecture")

/-! ## Command wrapping (`with_command`) and the facade state -/

/-- Escape embedded double quotes (`output.replace('"', '\\"')`). -/
def escDQ (s : String) : String := String.mk (replaceChar '"' ['\\', '"'] s.data)

/-- Escape the variable sigil (`escaped.replace("$", "\\$")`). -/
def escDollar (s : String) : String := String.mk (replaceChar '$' ['\\', '$'] s.data)

/-- Each dialect generator's `with_command`: interpreter invocation with the
inline-execution flag around the escaped script (Perl and Ruby additionally
escape `$`). -/
def lang_with_command : Lang → Option String → String → String
  | .python, p, out => (p.getD "/usr/bin/env python") ++ " -Bc \"" ++ escDQ out ++ "\""
  | .perl, p, out => (p.getD "/usr/bin/env perl") ++ " -e \"" ++ escDollar (escDQ out) ++ "\""
  | .ruby, p, out => (p.getD "/usr/bin/env ruby") ++ " -e \"" ++ escDollar (escDQ out) ++ "\""

/-- The `_generator` reference a successful `generate` leaves behind. -/
structure GenOut where
  lang : Lang
  output : String

/-- The mutable state of a `CodeGenerator` instance, defaults as in
`__init__`. -/
structure CodeGen where
  compression_level : Nat := 9
  wrap : Nat := 0
  syscall : Option Int := none
  meta : Lang := .python
  generator : Option GenOut := none

/-- Model of `CodeGenerator.generate`, returning the state the instance is
left in together with the result.  `self._generator = self._meta(self)` runs
first: when the `_Perl`/`_Ruby` constructor raises on a falsy syscall, the
assignment never happens and the state is unchanged; but once the
constructor returns, the generator reference is assigned and survives a
later failure, so when `_Ruby.add_call_elf` raises `IndexError` the state
keeps a generator holding the partial script built so far (everything up to
and including the `/proc/self/fd` path binding). -/
def CodeGen.generate (compress : Nat → List Nat → List Nat) (g : CodeGen)
    (elf : List Nat) (argv : List Char) : CodeGen × Except FeeError String :=
  let prepped := prepare_elf compress g.compression_level elf
  match g.meta with
  | .python =>
      let out := python_output g.syscall g.wrap prepped argv
      ({ g with generator := some ⟨.python, out⟩ }, .ok out)
  | .perl =>
      if optIntTruthy g.syscall then
        let out := perl_output (g.syscall.getD 0) g.wrap prepped argv
        ({ g with generator := some ⟨.perl, out⟩ }, .ok out)
      else
        (g, .error (.generatorException
          "Perl generator cannot resolve the syscall using libc, specify a target architecture"))
  | .ruby =>
      if optIntTruthy g.syscall then
        match ruby_output (g.syscall.getD 0) g.wrap prepped argv with
        | some out => ({ g with generator := some ⟨.ruby, out⟩ }, .ok out)
        | none =>
            ({ g with generator := some ⟨.ruby,
                ruby_partial_output (g.syscall.getD 0) g.wrap prepped⟩ },
             .error .indexError)
      else
        (g, .error (.generatorException
          "Ruby generator cannot resolve the syscall using libc, specify a target architecture"))

/-- Model of `CodeGenerator.with_command`: raises `GeneratorException("Code not yet
generated")` unless a generator exists, otherwise prefixes the dialect's
wrapped command with the shell-history-suppression statements. -/
def CodeGen.with_command (g : CodeGen) (path : Option String) : Except FeeError String :=
  match g.generator with
  | none => .error (.generatorException "Code not yet generated")
  | some gen =>
      .ok (" set +o history; unset HISTFILE; " ++ lang_with_command gen.lang path gen.output)

/-! ## Concrete 20-byte ELF header prefixes used as test vectors -/

/-- Little-endian (byte 5 = 1) header with machine identifier 62 (x86-64). -/
def elf62le : List Nat := [127, 69, 76, 70, 2, 1, 1, 0, 0, 0, 0, 0, 0, 0, 0, 0, 2, 0, 62, 0]

/-- Big-endian (byte 5 = 2) header with machine identifier 62 (x86-64). -/
def elf62be : List Nat := [127, 69, 76, 70, 2, 2, 1, 0, 0, 0, 0, 0, 0, 0, 0, 0, 0, 2, 0, 62]

/-- Little-endian header with machine identifier 99, which has no entry in
`syscall_numbers`. -/
def elf99le : List Nat := [127, 69, 76, 70, 2, 1, 1, 0, 0, 0, 0, 0, 0, 0, 0, 0, 2, 0, 99, 0]

/-- Little-endian header with machine identifier 8 (MIPS). -/
def elf8le : List Nat := [127, 69, 76, 70, 2, 1, 1, 0, 0, 0, 0, 0, 0, 0, 0, 0, 2, 0, 8, 0]

/-- Predicate: `a` occurs contiguously inside `l`. -/
def SubSeg (a l : List String) : Prop := ∃ s t, l = s ++ a ++ t

/-- Whether generation succeeded (a script string exists). -/
def isOkE : Except FeeError String → Bool
  | .ok _ => true
  | .error _ => false

/-- The script produced by a demonstration run of `generate` (Python
dialect, identity compressor, empty ELF). -/
def demoOut : String := python_output none 0 (prepare_elf (fun _ x => x) 9 []) ['x']

/-- The facade state left behind by that demonstration run. -/
def demoGen2 : CodeGen := { generator := some ⟨.python, demoOut⟩ }

/-! ## Lemmas and claim theorems -/

theorem b64Index_b64Char : ∀ n, n < 64 → b64Index (b64Char n) = n := by decide

theorem b64Char_ne_pad : ∀ n, n < 64 → b64Char n ≠ '=' := by decide

/-- Decoding inverts encoding on byte sequences. -/
theorem b64_roundtrip : ∀ (l : List Nat), (∀ x ∈ l, x < 256) →
    b64decodeChars (b64encodeBytes l) = l := by
  intro l
  induction l using b64encodeBytes.induct with
  | case1 => intro _; rfl
  | case2 a =>
    intro h
    have ha : a < 256 := h a (by simp)
    simp only [b64encodeBytes, b64decodeChars, if_true]
    rw [b64Index_b64Char _ (by omega), b64Index_b64Char _ (by omega)]
    simp only [List.cons.injEq, and_true]
    omega
  | case3 a b =>
    intro h
    have ha : a < 256 := h a (by simp)
    have hb : b < 256 := h b (by simp)
    simp only [b64encodeBytes, b64decodeChars]
    rw [if_neg (b64Char_ne_pad _ (by omega))]
    simp only [if_true]
    rw [b64Index_b64Char _ (by omega), b64Index_b64Char _ (by omega),
        b64Index_b64Char _ (by omega)]
    simp only [List.cons.injEq, and_true]
    omega
  | case4 a b c rest ih =>
    intro h
    have ha : a < 256 := h a (by simp)
    have hb : b < 256 := h b (by simp)
    have hc : c < 256 := h c (by simp)
    simp only [b64encodeBytes, b64decodeChars]
    rw [if_neg (b64Char_ne_pad _ (by omega)), if_neg (b64Char_ne_pad _ (by omega))]
    rw [b64Index_b64Char _ (by omega), b64Index_b64Char _ (by omega),
        b64Index_b64Char _ (by omega), b64Index_b64Char _ (by omega)]
    rw [ih (fun x hx => h x (by simp [hx]))]
    simp only [List.cons.injEq, and_true]
    omega

theorem chunksOf_nil (n : Nat) : chunksOf n [] = [] := by
  rw [chunksOf]
  simp

theorem chunksOf_cons (n : Nat) (s : List Char) (hs : s ≠ []) (hn : n ≠ 0) :
    chunksOf n s = s.take n :: chunksOf n (s.drop n) := by
  rw [chunksOf]
  simp [hs, hn]

/-- Concatenating the slices recovers the original text. -/
theorem chunksOf_join (n : Nat) (s : List Char) : (chunksOf n s).flatten = s := by
  induction s using chunksOf.induct n with
  | case1 => simp [chunksOf_nil]
  | case2 s h hn =>
    subst hn
    rw [chunksOf]
    simp [h]
  | case3 s h hn ih =>
    rw [chunksOf_cons n s h hn]
    simp [ih]

/-- Every slice has at most `n` characters. -/
theorem chunksOf_length_le (n : Nat) (s : List Char) (hn : 0 < n) :
    ∀ c ∈ chunksOf n s, c.length ≤ n := by
  induction s using chunksOf.induct n with
  | case1 => simp [chunksOf_nil]
  | case2 s h hn2 => omega
  | case3 s h hn2 ih =>
    rw [chunksOf_cons n s h hn2]
    intro c hc
    rcases List.mem_cons.mp hc with hc | hc
    · subst hc; simp
    · exact ih c hc

/-- Every slice except possibly the last has exactly `n` characters. -/
theorem chunksOf_dropLast_length (n : Nat) (s : List Char) :
    ∀ c ∈ (chunksOf n s).dropLast, c.length = n := by
  induction s using chunksOf.induct n with
  | case1 => simp [chunksOf_nil]
  | case2 s h hn2 => subst hn2; rw [chunksOf]; simp [h]
  | case3 s h hn ih =>
    rw [chunksOf_cons n s h hn]
    by_cases hd : chunksOf n (s.drop n) = []
    · simp [hd]
    · rw [List.dropLast_cons_of_ne_nil hd]
      intro c hc
      rcases List.mem_cons.mp hc with hc | hc
      · subst hc
        have hlen : n < s.length ∨ s.length ≤ n := by omega
        rcases hlen with hlt | hle
        · simp [List.length_take]; omega
        · exfalso
          apply hd
          have : s.drop n = [] := List.drop_eq_nil_of_le hle
          rw [this, chunksOf_nil]
      · exact ih c hc

theorem splitOnChar_ne_nil (c : Char) (l : List Char) : splitOnChar c l ≠ [] := by
  induction l with
  | nil => simp [splitOnChar]
  | cons x xs ih =>
    simp only [splitOnChar]
    rcases hs : splitOnChar c xs with _ | ⟨h, t⟩
    · simp
    · by_cases hx : x = c <;> simp [hx]

theorem intercalate_cons_two (sep a b : List Char) (t : List (List Char)) :
    List.intercalate sep (a :: b :: t) = a ++ sep ++ List.intercalate sep (b :: t) := by
  simp [List.intercalate, List.intersperse, List.append_assoc]

/-- Replacing every `c` by `rep` is the same as splitting at `c` and
re-joining the pieces with `rep`. -/
theorem replaceChar_eq_intercalate (c : Char) (rep : List Char) (l : List Char) :
    replaceChar c rep l = List.intercalate rep (splitOnChar c l) := by
  induction l with
  | nil => simp [replaceChar, splitOnChar, List.intercalate]
  | cons x xs ih =>
    rcases hs : splitOnChar c xs with _ | ⟨h, t⟩
    · exact absurd hs (splitOnChar_ne_nil c xs)
    · simp only [replaceChar, splitOnChar, hs]
      by_cases hx : x = c
      · simp only [hx, if_true, ih, hs]
        rw [intercalate_cons_two]
        simp [List.append_assoc]
      · simp only [if_neg hx, ih, hs]
        rcases t with _ | ⟨u, t2⟩
        · simp [List.intercalate]
        · rw [intercalate_cons_two, intercalate_cons_two]
          simp [List.append_assoc]

theorem escQuote_safe_aux (l : List Char) :
    quotesEscapedB (escQuote l) = true ∧ (escQuote l).head? ≠ some '\'' := by
  induction l with
  | nil => simp [escQuote, replaceChar, quotesEscapedB]
  | cons x xs ih =>
    by_cases hx : x = '\''
    · subst hx
      have hesc : escQuote ('\'' :: xs) = '\\' :: '\'' :: escQuote xs := by
        simp [escQuote, replaceChar]
      refine ⟨?_, by simp [hesc]⟩
      rw [hesc]
      rcases hxs : escQuote xs with _ | ⟨y, rest⟩
      · simp [quotesEscapedB]
      · simp only [quotesEscapedB]
        rw [← hxs]
        simp [ih.1]
    · have hesc : escQuote (x :: xs) = x :: escQuote xs := by
        simp [escQuote, replaceChar, hx]
      refine ⟨?_, by simp [hesc, hx]⟩
      rw [hesc]
      rcases hxs : escQuote xs with _ | ⟨y, rest⟩
      · simp [quotesEscapedB, hx]
      · have hy : y ≠ '\'' := by
          have h2 := ih.2
          rw [hxs] at h2
          simpa using h2
        simp only [quotesEscapedB, if_neg hx]
        have hcond : (x = '\\' && y = '\'') = false := by
          simp [hy]
        rw [hcond]
        simp only [Bool.false_eq_true, if_false]
        rw [← hxs]
        exact ih.1

/-- Every quote of the quote-escaped text carries its backslash. -/
theorem escQuote_safe (l : List Char) : quotesEscapedB (escQuote l) = true :=
  (escQuote_safe_aux l).1

/-- Quote-escaping commutes with splitting at spaces (it never creates or
destroys a space). -/
theorem splitOnChar_escQuote (l : List Char) :
    splitOnChar ' ' (escQuote l) = (splitOnChar ' ' l).map escQuote := by
  induction l with
  | nil => simp [escQuote, replaceChar, splitOnChar]
  | cons x xs ih =>
    rcases hs : splitOnChar ' ' xs with _ | ⟨h, t⟩
    · exact absurd hs (splitOnChar_ne_nil ' ' xs)
    · by_cases hx : x = '\''
      · subst hx
        have hesc : escQuote ('\'' :: xs) = '\\' :: '\'' :: escQuote xs := by
          simp [escQuote, replaceChar]
        rw [hesc]
        simp only [splitOnChar, ih, hs, List.map]
        have hbs : ('\\' : Char) ≠ ' ' := by decide
        have hq : ('\'' : Char) ≠ ' ' := by decide
        simp only [if_neg hbs, if_neg hq]
        have hesc2 : escQuote ('\'' :: h) = '\\' :: '\'' :: escQuote h := by
          simp [escQuote, replaceChar]
        simp [hesc2]
      · have hesc : escQuote (x :: xs) = x :: escQuote xs := by
          simp [escQuote, replaceChar, hx]
        rw [hesc]
        simp only [splitOnChar, ih, hs, List.map]
        by_cases hsp : x = ' '
        · subst hsp
          simp [escQuote, replaceChar]
        · have hesc2 : escQuote (x :: h) = x :: escQuote h := by
            simp [escQuote, replaceChar, hx]
          simp [hsp, hesc2]

/-! ## Claim theorems -/

/-- Claim C1: for every input byte sequence and every compression level k in
0..9, base64-decoding the encoded payload produced by the transform pipeline
(`_prepare_elf`) and then zlib-decompressing the result reproduces the
original byte sequence exactly.  The zlib pair is external; its documented
contract (decompression inverts compression, compressed output is bytes) is
assumed at the used instance. -/
theorem c1_transform_roundtrip
    (compress : Nat → List Nat → List Nat) (decompress : List Nat → List Nat)
    (elf : List Nat) (k : Nat) (hk : k ≤ 9)
    (hbytes : ∀ b ∈ compress k elf, b < 256)
    (hzlib : decompress (compress k elf) = elf) :
    decompress (b64decodeChars (prepare_elf compress k elf)) = elf := by
  rw [prepare_elf, b64_roundtrip _ hbytes, hzlib]

theorem c1_transform_roundtrip_witness :
    id (b64decodeChars (prepare_elf (fun _ x => x) 9 [0, 255, 10])) = [0, 255, 10] :=
  c1_transform_roundtrip (fun _ x => x) id [0, 255, 10] 9 (by decide) (by decide) rfl

/-- Claim C2: for every 20-byte header whose byte at offset 5 is 1
(little-endian) or 2 (big-endian) and whose bytes at offsets 18-19, read in
that endianness, form a machine identifier present in the architecture
table, auto-detection resolves to exactly the table's syscall number for
that identifier, for both endiannesses. -/
theorem c2_autodetect_correct (header : List Nat) (hlen : header.length = 20)
    (m : Nat) (v : Int)
    (hm : header.getD 5 0 = 1 ∧ m = header.getD 18 0 + 256 * header.getD 19 0 ∨
          header.getD 5 0 = 2 ∧ m = 256 * header.getD 18 0 + header.getD 19 0)
    (htable : dictGet (.num m) syscall_entries = some v) :
    resolve_syscall "autodetect" none header = some v := by
  have htake : header.take 20 = header := by
    rw [← hlen]
    exact List.take_length header
  have hmach : get_e_machine (header.take 20) = m := by
    rw [htake, get_e_machine]
    rcases hm with ⟨h5, hm⟩ | ⟨h5, hm⟩
    · rw [if_pos h5, hm]
    · rw [if_neg (by rw [h5]; decide), hm]
  simp [resolve_syscall, hmach, htable]

theorem c2_autodetect_correct_witness :
    resolve_syscall "autodetect" none elf62le = some 319 ∧
    resolve_syscall "autodetect" none elf62be = some 319 :=
  ⟨c2_autodetect_correct elf62le (by decide) 62 319 (Or.inl (by decide)) (by decide),
   c2_autodetect_correct elf62be (by decide) 62 319 (Or.inr (by decide)) (by decide)⟩

/-- Claim C10: machine identifier 8 is bound under both the 32-bit MIPS and
64-bit MIPS rows of `syscall_numbers`, the later binding wins, so
auto-detecting any binary with machine identifier 8 resolves to 5314 while
the named token `"mips"` resolves to 4354: token lookup and auto-detection
disagree for 32-bit MIPS. -/
theorem c10_mips_duplicate :
    (DKey.num 8, (4354 : Int)) ∈ syscall_entries ∧
    (DKey.num 8, (5314 : Int)) ∈ syscall_entries ∧
    dictGet (.num 8) syscall_entries = some 5314 ∧
    dictGet (.str "mips") syscall_entries = some 4354 ∧
    (∀ elf : List Nat, get_e_machine (elf.take 20) = 8 →
      resolve_syscall "autodetect" none elf = some 5314) ∧
    (∀ elf : List Nat, resolve_syscall "mips" none elf = some 4354) ∧
    (5314 : Int) ≠ 4354 := by
  refine ⟨by decide, by decide, by decide, by decide, ?_, ?_, by decide⟩
  · intro elf h8
    simp only [resolve_syscall, h8, if_true]
    rw [if_pos (by decide : DKey.num 8 ≠ DKey.str "libc")]
    decide
  · intro elf
    simp only [resolve_syscall]
    rw [if_neg (by decide : ¬("mips" : String) = "autodetect")]
    rw [if_pos (by decide : DKey.str "mips" ≠ DKey.str "libc")]
    decide

theorem c10_mips_duplicate_witness :
    resolve_syscall "autodetect" none elf8le = some 5314 :=
  c10_mips_duplicate.2.2.2.2.1 elf8le (by decide)

/-- Claim C4 (code bug): with `-s 9999` and no named architecture, the
default `"autodetect"` target is replaced by the machine identifier of the
ELF and looked up in the table, so the explicit syscall number is never
consulted: on an x86-64 header the resolver yields 319, not 9999, and the
emitted Python script binds 319. -/
theorem c4_syscall_flag_dead :
    resolve_syscall "autodetect" (some 9999) elf62le = some 319 ∧
    resolve_syscall "autodetect" (some 9999) elf62le ≠ some 9999 ∧
    python_dump_stmt (resolve_syscall "autodetect" (some 9999) elf62le) =
      "f = s(319, '', 1)" ∧
    (∀ sarg : Option Int,
      resolve_syscall "autodetect" sarg elf62le = resolve_syscall "autodetect" none elf62le) := by
  refine ⟨by decide, by decide, by decide, ?_⟩
  intro sarg
  simp only [resolve_syscall, if_true]
  rw [if_pos (by decide : DKey.num (get_e_machine (elf62le.take 20)) ≠ DKey.str "libc")]
  rw [if_pos (by decide : DKey.num (get_e_machine (elf62le.take 20)) ≠ DKey.str "libc")]

/-- Claim C3 (counterexample): on a header whose machine identifier (99) has
no entry in the table, the resolved syscall is `None`, yet Python-dialect
generation succeeds and produces a script, contradicting "generation fails
... for every dialect". -/
theorem c3_unsupported_machine_counterexample :
    dictGet (.num (get_e_machine (elf99le.take 20))) syscall_entries = none ∧
    resolve_syscall "autodetect" none elf99le = none ∧
    isOkE (CodeGenerator_generate (fun _ x => x) .python 9 0
      (resolve_syscall "autodetect" none elf99le) elf99le ['x']) = true := by
  refine ⟨by decide, by decide, ?_⟩
  rfl

/-- Claim C3 (amended): when auto-detection finds no table entry for the
machine identifier, the resolved syscall is `None`; the Perl and Ruby
generators then fail with a `GeneratorException` and produce no script, but
the Python generator succeeds, binding `memfd_create` by name instead. -/
theorem c3_unsupported_machine_amended
    (compress : Nat → List Nat → List Nat) (cl w : Nat) (elf : List Nat)
    (argv : List Char) (sarg : Option Int)
    (h : dictGet (.num (get_e_machine (elf.take 20))) syscall_entries = none) :
    resolve_syscall "autodetect" sarg elf = none ∧
    CodeGenerator_generate compress .perl cl w (resolve_syscall "autodetect" sarg elf) elf argv =
      .error (.generatorException
        "Perl generator cannot resolve the syscall using libc, specify a target architecture") ∧
    CodeGenerator_generate compress .ruby cl w (resolve_syscall "autodetect" sarg elf) elf argv =
      .error (.generatorException
        "Ruby generator cannot resolve the syscall using libc, specify a target architecture") ∧
    isOkE (CodeGenerator_generate compress .python cl w (resolve_syscall "autodetect" sarg elf)
      elf argv) = true := by
  have hres : resolve_syscall "autodetect" sarg elf = none := by
    simp only [resolve_syscall, if_true]
    rw [if_pos (fun hh => DKey.noConfusion hh :
      DKey.num (get_e_machine (elf.take 20)) ≠ DKey.str "libc")]
    exact h
  rw [hres]
  exact ⟨rfl, rfl, rfl, rfl⟩

theorem c3_unsupported_machine_amended_witness :
    resolve_syscall "autodetect" none elf99le = none ∧
    CodeGenerator_generate (fun _ x => x) .perl 9 0 (resolve_syscall "autodetect" none elf99le)
      elf99le ['x'] =
      .error (.generatorException
        "Perl generator cannot resolve the syscall using libc, specify a target architecture") ∧
    CodeGenerator_generate (fun _ x => x) .ruby 9 0 (resolve_syscall "autodetect" none elf99le)
      elf99le ['x'] =
      .error (.generatorException
        "Ruby generator cannot resolve the syscall using libc, specify a target architecture") ∧
    isOkE (CodeGenerator_generate (fun _ x => x) .python 9 0
      (resolve_syscall "autodetect" none elf99le) elf99le ['x']) = true :=
  c3_unsupported_machine_amended (fun _ x => x) 9 0 elf99le ['x'] none (by decide)

/-- Claim C5: with no concrete syscall number resolved, the Perl and Ruby
generators fail fast with their `GeneratorException` before any statement is
produced, while the Python generator succeeds on the same configuration and
its emitted header binds `memfd_create` by name. -/
theorem c5_dialect_gating (compress : Nat → List Nat → List Nat) (cl w : Nat)
    (elf : List Nat) (argv : List Char) :
    CodeGenerator_generate compress .perl cl w none elf argv =
      .error (.generatorException
        "Perl generator cannot resolve the syscall using libc, specify a target architecture") ∧
    CodeGenerator_generate compress .ruby cl w none elf argv =
      .error (.generatorException
        "Ruby generator cannot resolve the syscall using libc, specify a target architecture") ∧
    CodeGenerator_generate compress .python cl w none elf argv =
      .ok (python_output none w (prepare_elf compress cl elf) argv) ∧
    (python_stmts none w (prepare_elf compress cl elf) argv)[2]? =
      some "s = l.memfd_create" :=
  ⟨rfl, rfl, rfl, rfl⟩

/-- Claim C6: for every dialect, wrap widths 0..3 leave the encoded payload
as one unbroken literal; a width w > 3 splits it into slices of exactly
w - 3 characters (the last possibly shorter) joined with the dialect's
concatenation separator, and re-joining the slices restores the unsplit
text, so decoding is unchanged. -/
theorem c6_wrap_invariant (w : Nat) (s : List Char) :
    (w ≤ 3 →
      python_wrap_encoded w s = s ∧ perl_wrap_encoded w s = s ∧
      ruby_wrap_encoded w s = s) ∧
    (3 < w →
      python_wrap_encoded w s =
        List.intercalate (String.toList "'\nb'") (chunksOf (w - 3) s) ∧
      perl_wrap_encoded w s =
        List.intercalate (String.toList "'.\n'") (chunksOf (w - 3) s) ∧
      ruby_wrap_encoded w s =
        List.intercalate (String.toList "'+\n'") (chunksOf (w - 3) s) ∧
      (chunksOf (w - 3) s).flatten = s ∧
      (∀ c ∈ chunksOf (w - 3) s, c.length ≤ w - 3) ∧
      (∀ c ∈ (chunksOf (w - 3) s).dropLast, c.length = w - 3)) := by
  constructor
  · intro hw
    have hng : ¬ w > 3 := by omega
    exact ⟨by simp [python_wrap_encoded, hng], by simp [perl_wrap_encoded, hng],
           by simp [ruby_wrap_encoded, hng]⟩
  · intro hw
    exact ⟨by simp [python_wrap_encoded, hw], by simp [perl_wrap_encoded, hw],
           by simp [ruby_wrap_encoded, hw], chunksOf_join _ s,
           chunksOf_length_le _ s (by omega), chunksOf_dropLast_length _ s⟩

theorem c6_wrap_invariant_witness :
    python_wrap_encoded 7 (String.toList "b'QUJDRA=='") =
      List.intercalate (String.toList "'\nb'") (chunksOf 4 (String.toList "b'QUJDRA=='")) ∧
    (chunksOf 4 (String.toList "b'QUJDRA=='")).flatten = String.toList "b'QUJDRA=='" ∧
    python_wrap_encoded 2 (String.toList "b'QUJDRA=='") = String.toList "b'QUJDRA=='" :=
  ⟨((c6_wrap_invariant 7 (String.toList "b'QUJDRA=='")).2 (by decide)).1,
   ((c6_wrap_invariant 7 (String.toList "b'QUJDRA=='")).2 (by decide)).2.2.2.1,
   ((c6_wrap_invariant 2 (String.toList "b'QUJDRA=='")).1 (by decide)).1⟩

/-- Claim C7: in every dialect's successfully generated statement sequence,
the descriptor-creation call passes the empty-string name and the literal
close-on-exec flag 1, is immediately followed by the statement writing the
decompressed bytes into the descriptor, and the execution step references
the `/proc/self/fd/` pseudo-path of that descriptor. -/
theorem c7_descriptor_steps (n : Int) (hn : n ≠ 0) (w : Nat) (prepped : List Char)
    (argv : List Char) :
    SubSeg ["f = s(" ++ toString n ++ ", '', 1)", "os.write(f, e)",
            "p = '/proc/self/fd/%d' % f"]
      (python_stmts (some n) w prepped argv) ∧
    SubSeg ["f = s('', 1)", "os.write(f, e)", "p = '/proc/self/fd/%d' % f"]
      (python_stmts none w prepped argv) ∧
    (python_stmts (some n) w prepped argv).getLast? =
      some ("os.execle(p, '" ++ String.mk (args_escaped argv) ++ "', \x7b\x7d)") ∧
    SubSeg ["$n = ''", "$f = syscall(" ++ toString n ++ ", $n, 1)",
            "open($h, '>&='.$f) or die", "select((select($h), $|=1)[0])",
            "print $h $e", "$p = \"/proc/self/fd/$f\""]
      (perl_stmts n w prepped argv) ∧
    (perl_stmts n w prepped argv).getLast? =
      some ("exec \x7b$p\x7d '" ++ String.mk (args_escaped argv) ++ "'") ∧
    (∀ stmts, ruby_stmts n w prepped argv = some stmts →
      SubSeg ["n = ''", "f = syscall(" ++ toString n ++ ", n, 1)", "io = IO.new(f)",
              "io << e", "p = \"/proc/self/fd/#\x7bf\x7d\""] stmts) := by
  have hdump : python_dump_stmt (some n) = "f = s(" ++ toString n ++ ", '', 1)" := by
    simp [python_dump_stmt, hn]
  have htruthy : optIntTruthy (some n) = true := by
    simp [optIntTruthy, hn]
  refine ⟨?_, ?_, ?_, ?_, ?_, ?_⟩
  · refine ⟨["import ctypes, os, base64, zlib", "l = ctypes.CDLL(None)", "s = l.syscall",
       "c = base64.b64decode(\n" ++
         String.mk (python_wrap_encoded w (pyBytesRepr prepped)) ++ "\n)",
       "e = zlib.decompress(c)"],
      ["os.execle(p, '" ++ String.mk (args_escaped argv) ++ "', \x7b\x7d)"], ?_⟩
    simp [python_stmts, hdump, htruthy]
  · refine ⟨["import ctypes, os, base64, zlib", "l = ctypes.CDLL(None)", "s = l.memfd_create",
       "c = base64.b64decode(\n" ++
         String.mk (python_wrap_encoded w (pyBytesRepr prepped)) ++ "\n)",
       "e = zlib.decompress(c)"],
      ["os.execle(p, '" ++ String.mk (args_escaped argv) ++ "', \x7b\x7d)"], ?_⟩
    simp [python_stmts, python_dump_stmt, optIntTruthy]
  · simp [python_stmts]
  · refine ⟨["use MIME::Base64", "use Compress::Zlib",
       "$c = decode_base64(''.\n'" ++
         String.mk (perl_wrap_encoded w prepped) ++ "')",
       "$e = uncompress($c)"],
      ["exec \x7b$p\x7d '" ++ String.mk (args_escaped argv) ++ "'"], ?_⟩
    simp [perl_stmts]
  · simp [perl_stmts]
  · intro stmts h
    simp only [ruby_stmts] at h
    cases hc : ruby_call_stmts argv with
    | none => rw [hc] at h; simp at h
    | some call =>
      rw [hc] at h
      simp only [Option.map_some', Option.some.injEq] at h
      by_cases ha : pyStrip argv = []
      · rw [ruby_call_stmts, if_pos ha] at hc
        exact absurd hc (by simp)
      · rw [ruby_call_stmts, if_neg ha] at hc
        simp only [Option.some.injEq] at hc
        rw [← h, ← hc]
        refine ⟨["require 'base64'", "require 'zlib'",
           "c = Base64.decode64(''+\n'" ++
             String.mk (ruby_wrap_encoded w prepped) ++ "')",
           "e = Zlib::Inflate.inflate(c)"],
          ["exec([p, '" ++ String.mk (ruby_argv0 (pyStrip argv)) ++ "']" ++
             (if (spaceDelim (escQuote (pyStrip ((pyStrip argv).drop
                  (ruby_argv0 (pyStrip argv)).length)))).length > 0
              then ", '" ++ String.mk (spaceDelim (escQuote (pyStrip ((pyStrip argv).drop
                  (ruby_argv0 (pyStrip argv)).length)))) ++ "'"
              else "") ++ ")"], ?_⟩
        rfl

theorem c7_descriptor_steps_witness :
    SubSeg ["f = s(" ++ toString (319 : Int) ++ ", '', 1)", "os.write(f, e)",
            "p = '/proc/self/fd/%d' % f"]
      (python_stmts (some 319) 0 [] ['x']) :=
  (c7_descriptor_steps 319 (by decide) 0 [] ['x']).1

/-- Claim C8 (counterexample): in the Ruby dialect the first argument
(argv[0]) is substituted into the exec statement verbatim, so a single quote
inside it is not escaped: with argv `a'b` the emitted statement is
`exec([p, 'a'b'])`, whose substituted name text fails the
every-quote-escaped check. -/
theorem c8_ruby_argv0_counterexample :
    ruby_call_stmts (String.toList "a'b") =
      some ["p = \"/proc/self/fd/#\x7bf\x7d\"", "exec([p, 'a'b'])"] ∧
    ruby_argv0 (pyStrip (String.toList "a'b")) = String.toList "a'b" ∧
    quotesEscapedB (ruby_argv0 (pyStrip (String.toList "a'b"))) = false := by
  refine ⟨?_, by decide, by decide⟩
  rfl

/-- Claim C8 (amended): in the Python and Perl dialects the substituted
argument text is the original words (split at spaces) each with every single
quote backslash-escaped, joined by the `', '` delimiter, and the escaped
text of every word passes the every-quote-escaped check; in the Ruby dialect
the same holds for the arguments after the first, while argv[0] is
substituted without escaping. -/
theorem c8_quote_escaping_amended (argv : List Char) :
    (args_escaped argv =
      List.intercalate argDelim ((splitOnChar ' ' (pyStrip argv)).map escQuote)) ∧
    (∀ t : List Char, quotesEscapedB (escQuote t) = true) ∧
    (∀ args, pyStrip argv = args → args ≠ [] →
      ruby_call_stmts argv = some ["p = \"/proc/self/fd/#\x7bf\x7d\"",
        "exec([p, '" ++ String.mk (ruby_argv0 args) ++ "']" ++
          (if (spaceDelim (escQuote (pyStrip (args.drop (ruby_argv0 args).length)))).length > 0
           then ", '" ++ String.mk
             (spaceDelim (escQuote (pyStrip (args.drop (ruby_argv0 args).length)))) ++ "'"
           else "") ++ ")"] ∧
      spaceDelim (escQuote (pyStrip (args.drop (ruby_argv0 args).length))) =
        List.intercalate argDelim
          ((splitOnChar ' ' (pyStrip (args.drop (ruby_argv0 args).length))).map escQuote)) := by
  refine ⟨?_, escQuote_safe, ?_⟩
  · rw [args_escaped, spaceDelim, replaceChar_eq_intercalate, splitOnChar_escQuote]
  · intro args hargs hne
    subst hargs
    constructor
    · rw [ruby_call_stmts, if_neg hne]
    · rw [spaceDelim, replaceChar_eq_intercalate, splitOnChar_escQuote]

theorem c8_quote_escaping_amended_witness :
    (args_escaped (String.toList "a'b c") =
      List.intercalate argDelim
        ((splitOnChar ' ' (pyStrip (String.toList "a'b c"))).map escQuote)) ∧
    (ruby_call_stmts (String.toList "a'b c") =
      some ["p = \"/proc/self/fd/#\x7bf\x7d\"",
        "exec([p, '" ++ String.mk (ruby_argv0 (pyStrip (String.toList "a'b c"))) ++ "']" ++
          (if (spaceDelim (escQuote (pyStrip ((pyStrip (String.toList "a'b c")).drop
                (ruby_argv0 (pyStrip (String.toList "a'b c"))).length)))).length > 0
           then ", '" ++ String.mk (spaceDelim (escQuote (pyStrip
             ((pyStrip (String.toList "a'b c")).drop
                (ruby_argv0 (pyStrip (String.toList "a'b c"))).length)))) ++ "'"
           else "") ++ ")"]) :=
  ⟨(c8_quote_escaping_amended (String.toList "a'b c")).1,
   ((c8_quote_escaping_amended (String.toList "a'b c")).2.2
     (pyStrip (String.toList "a'b c")) rfl (by decide)).1⟩

/-- Claim C9 (counterexample): `generate` assigns `self._generator` before
running the four steps, so a Ruby generate that fails inside `add_call_elf`
(whitespace-only argv, `IndexError`) leaves a truthy generator holding the
partial script, and `with_command` then succeeds although no generate call
ever succeeded — contradicting "before any successful generate, wrapping
fails with NotYetGenerated and produces no command string". -/
theorem c9_wrap_gating_counterexample :
    (CodeGen.generate (fun _ x => x)
      { syscall := some 319, meta := .ruby } [] [' ']).2 = .error .indexError ∧
    isOkE (CodeGen.with_command
      (CodeGen.generate (fun _ x => x)
        { syscall := some 319, meta := .ruby } [] [' ']).1 none) = true :=
  ⟨rfl, rfl⟩

/-- Claim C9 (amended): `with_command` on a state with no generator — a
fresh instance, or one whose last `generate` failed in the dialect
constructor, which leaves the state unchanged — fails with
`GeneratorException("Code not yet generated")` and yields no command
string; after a successful `generate` it succeeds and prefixes the
dialect's wrapped command with the shell-history-suppression statements,
independent of dialect; but a Ruby `generate` that fails after the
constructor ran (whitespace-only argv) leaves the generator assigned, and
`with_command` then succeeds, wrapping the partial script. -/
theorem c9_wrap_gating_amended :
    (∀ (cl w : Nat) (sys : Option Int) (m : Lang) (path : Option String),
      CodeGen.with_command ⟨cl, w, sys, m, none⟩ path =
        .error (.generatorException "Code not yet generated")) ∧
    (∀ (compress : Nat → List Nat → List Nat) (g : CodeGen) (elf : List Nat)
        (argv : List Char),
      optIntTruthy g.syscall = false → (g.meta = .perl ∨ g.meta = .ruby) →
      (CodeGen.generate compress g elf argv).1 = g) ∧
    (∀ (compress : Nat → List Nat → List Nat) (g g2 : CodeGen) (elf : List Nat)
        (argv : List Char) (out : String) (path : Option String),
      CodeGen.generate compress g elf argv = (g2, .ok out) →
      CodeGen.with_command g2 path =
        .ok (" set +o history; unset HISTFILE; " ++ lang_with_command g.meta path out)) ∧
    (∀ (compress : Nat → List Nat → List Nat) (g : CodeGen) (elf : List Nat)
        (argv : List Char) (path : Option String),
      g.meta = .ruby → optIntTruthy g.syscall = true → pyStrip argv = [] →
      (CodeGen.generate compress g elf argv).2 = .error .indexError ∧
      CodeGen.with_command (CodeGen.generate compress g elf argv).1 path =
        .ok (" set +o history; unset HISTFILE; " ++ lang_with_command .ruby path
          (ruby_partial_output (g.syscall.getD 0) g.wrap
            (prepare_elf compress g.compression_level elf)))) := by
  refine ⟨?_, ?_, ?_, ?_⟩
  · intro cl w sys m path
    rfl
  · intro compress g elf argv ht hm
    rcases hm with hm | hm <;> simp [CodeGen.generate, hm, ht]
  · intro compress g g2 elf argv out path h
    cases hm : g.meta with
    | python =>
      simp only [CodeGen.generate, hm, Prod.mk.injEq, Except.ok.injEq] at h
      obtain ⟨hg2, hout⟩ := h
      subst hout
      rw [← hg2]
      simp [CodeGen.with_command, hm]
    | perl =>
      by_cases ht : optIntTruthy g.syscall
      · simp only [CodeGen.generate, hm, ht, if_true, Prod.mk.injEq, Except.ok.injEq] at h
        obtain ⟨hg2, hout⟩ := h
        subst hout
        rw [← hg2]
        simp [CodeGen.with_command, hm]
      · simp only [CodeGen.generate, hm, ht, Bool.false_eq_true, if_false,
          Prod.mk.injEq] at h
        exact absurd h.2 (by simp)
    | ruby =>
      by_cases ht : optIntTruthy g.syscall
      · cases hro : ruby_output (g.syscall.getD 0) g.wrap
            (prepare_elf compress g.compression_level elf) argv with
        | some o =>
          simp only [CodeGen.generate, hm, ht, if_true, hro, Prod.mk.injEq,
            Except.ok.injEq] at h
          obtain ⟨hg2, hout⟩ := h
          subst hout
          rw [← hg2]
          simp [CodeGen.with_command, hm]
        | none =>
          simp only [CodeGen.generate, hm, ht, if_true, hro, Prod.mk.injEq] at h
          exact absurd h.2 (by simp)
      · simp only [CodeGen.generate, hm, ht, Bool.false_eq_true, if_false,
          Prod.mk.injEq] at h
        exact absurd h.2 (by simp)
  · intro compress g elf argv path hm ht hargv
    have hcall : ruby_call_stmts argv = none := by
      rw [ruby_call_stmts, if_pos hargv]
    have hro : ruby_output (g.syscall.getD 0) g.wrap
        (prepare_elf compress g.compression_level elf) argv = none := by
      simp [ruby_output, ruby_stmts, hcall]
    constructor
    · simp [CodeGen.generate, hm, ht, hro]
    · simp [CodeGen.generate, hm, ht, hro, CodeGen.with_command]

theorem c9_wrap_gating_amended_witness :
    CodeGen.with_command demoGen2 none =
      .ok (" set +o history; unset HISTFILE; " ++ lang_with_command .python none demoOut) ∧
    (CodeGen.generate (fun _ x => x)
      { syscall := some 279, meta := .ruby } [] ['\t']).2 = .error .indexError :=
  ⟨c9_wrap_gating_amended.2.2.1 (fun _ x => x) {} demoGen2 [] ['x'] demoOut none rfl,
   (c9_wrap_gating_amended.2.2.2 (fun _ x => x)
      { syscall := some 279, meta := .ruby } [] ['\t'] none rfl rfl (by decide)).1⟩
